import Mathlib

/-
Verification of the session synchronization engine of the chess-apo repository.
The definitions below embed the Game component of src/src/pages/Game.tsx; the final
iteration of the component (lines 518 to 958) supersedes same-named earlier
definitions, while helpers only defined in the first iteration (the broadcast
handler, onDrop, updateGameState, respondToDrawOffer) keep their earlier text.
Epoch times are integers in milliseconds; the pgn text is abstracted as the list
of half-move tokens it encodes, and the chess.js instance as its move history.
-/

/-- The two values of the current_turn column and of playerColor. -/
inductive Color where
  | white
  | black
deriving DecidableEq, Repr

/-- The running score kept across rematches (score field of GameState). -/
structure Score where
  white : Int
  black : Int
  draws : Int
deriving DecidableEq, Repr

/-- The games row, as the GameState interface of Game.tsx lines 533 to 556. -/
structure GameState where
  id : String
  players : List String
  current_turn : Color
  pgn : List String
  time_control : Int
  increment : Int
  pending_draw_offer : Option String
  pending_takeback_request : Option String
  game_result : Option String
  moves : List String
  creator : String
  white_time : Int
  black_time : Int
  started_at : Option Int
  white_player : Option String
  black_player : Option String
  score : Option Score
  pending_rematch : Option String
deriving DecidableEq, Repr

/-- The time control settings chosen in the settings panel. -/
structure GameSettings where
  time_control : Int
  increment : Int
deriving DecidableEq, Repr

/-- A move object as handed to the chess.js move call: from, to and promotion. -/
structure MoveInput where
  fromSq : String
  toSq : String
  promotion : String
deriving DecidableEq, Repr

/-- The turn of a chess.js instance holding the given move history: white when an
even number of half moves has been played. -/
def chessTurn (g : List String) : Color :=
  if g.length % 2 = 0 then Color.white else Color.black

/-- The external move-legality oracle: applying a move object to a position given
by its history, returning the new history, or none when the move is rejected. -/
abbrev Oracle := List String → MoveInput → Option (List String)

/-- The move log label built in makeMove line 740: a color tag followed by the
from and to squares. -/
def moveLabel (c : Color) (mv : MoveInput) : String :=
  (if c = Color.white then "Blancs: " else "Noirs: ") ++ mv.fromSq ++ mv.toSq

/-- makeMove of Game.tsx lines 722 to 771: the guard chain, the oracle call, and
the next snapshot written to the store and broadcast. The source computes
elapsedSeconds from started_at (lines 732 to 734) but never uses it in the new
state; the embedding keeps that computation as a dead binding. -/
def makeMove (oracle : Oracle) (gameState : Option GameState) (isWaiting : Bool)
    (hasId : Bool) (game : List String) (playerColor : Option Color)
    (mv : MoveInput) (now : Int) : Option GameState :=
  match gameState with
  | none => none
  | some gs =>
    if isWaiting = true ∨ hasId = false ∨ gs.game_result.isSome = true then none
    else if chessTurn game = Color.white ∧ playerColor ≠ some Color.white then none
    else if chessTurn game = Color.black ∧ playerColor ≠ some Color.black then none
    else
      match oracle game mv with
      | none => none
      | some newGame =>
        let _elapsedSeconds :=
          Int.fdiv (now - (match gs.started_at with | some s => s | none => now)) 1000
        some { gs with
          current_turn := if chessTurn game = Color.white then Color.black else Color.white,
          pgn := newGame,
          moves := gs.moves ++ [moveLabel (chessTurn game) mv],
          white_time := if chessTurn game = Color.black then gs.white_time + gs.increment
                        else gs.white_time,
          black_time := if chessTurn game = Color.white then gs.black_time + gs.increment
                        else gs.black_time }

/-- The error taxonomy for move writes, from section 7 of the spec. -/
inductive MoveError where
  | Illegal
  | NotYourTurn
  | Stale
deriving DecidableEq, Repr

/-- Modelled from the spec: the persistent store applies updates last writer wins,
keyed only by row id (sections 5 and 6). This is the semantics of the update call
conditioned on id alone, as issued by makeMove (lines 747 to 750) and by
updateGameState (lines 244 to 247): no expected version is passed, so a write to
an existing row is never rejected. -/
def storeUpdate (row : GameState) (rowId : String) (snapshot : GameState) :
    Except MoveError GameState :=
  if row.id = rowId then Except.ok snapshot else Except.ok row

/-- The write that section 5 of the spec requires, stated from the spec words for
comparison with storeUpdate: conditioned on the writer observed turn matching the
store current turn, rejected as MoveError.Stale otherwise. -/
def specConditionalWrite (row : GameState) (rowId : String) (observedTurn : Color)
    (snapshot : GameState) : Except MoveError GameState :=
  if row.id = rowId ∧ row.current_turn = observedTurn then Except.ok snapshot
  else Except.error MoveError.Stale

/-- respondToDrawOffer of Game.tsx lines 278 to 294. The component playerId is in
scope but the function never reads it: there is no check that the responder is not
the offering participant. Returns the merged snapshot written through
updateGameState, or none when the early guard returns without writing. -/
def respondToDrawOffer (playerId : String) (hasId : Bool)
    (gameState : Option GameState) (accept : Bool) : Option GameState :=
  match gameState with
  | none => none
  | some gs =>
    if hasId = false ∨ gs.pending_draw_offer.isNone = true then none
    else if accept then
      some { gs with pending_draw_offer := none, game_result := some "½-½" }
    else
      some { gs with pending_draw_offer := none }

/-- respondToTakeback of Game.tsx lines 773 to 819: guarded on a pending request
and a nonempty history; on accept the pgn is reloaded, one ply undone, the last
move log entry dropped, and the turn indicator set to the flip of the current
turn. The clock fields are carried over unchanged. Returns the snapshot written,
or none when the early guard returns without writing. -/
def respondToTakeback (hasId : Bool) (gameState : Option GameState)
    (game : List String) (accept : Bool) : Option GameState :=
  match gameState with
  | none => none
  | some gs =>
    if hasId = false ∨ gs.pending_takeback_request.isNone = true ∨ game.length = 0 then
      none
    else if accept then
      some { gs with
        pending_takeback_request := none,
        pgn := game.dropLast,
        moves := gs.moves.dropLast,
        current_turn := if chessTurn game = Color.white then Color.black else Color.white }
    else
      some { gs with pending_takeback_request := none }

/-- The score tally of respondToRematch lines 667 to 679. -/
def rematchScore (gs : GameState) : Score :=
  let s0 : Score := match gs.score with | some s => s | none => { white := 0, black := 0, draws := 0 }
  if gs.game_result = some "1-0" then { s0 with white := s0.white + 1 }
  else if gs.game_result = some "0-1" then { s0 with black := s0.black + 1 }
  else if gs.game_result = some "½-½" then { s0 with draws := s0.draws + 1 }
  else s0

/-- The updatedState of respondToRematch lines 681 to 694: the same row, with the
game fields cleared, the result set back to null, the clocks reset from the local
settings, and a fresh started_at. -/
def rematchResult (gs : GameState) (settings : GameSettings) (now : Int) : GameState :=
  { gs with
    pgn := [],
    moves := [],
    current_turn := Color.white,
    game_result := none,
    pending_rematch := none,
    pending_draw_offer := none,
    pending_takeback_request := none,
    white_time := settings.time_control * 60,
    black_time := settings.time_control * 60,
    started_at := some now,
    score := some (rematchScore gs) }

/-- respondToRematch of Game.tsx lines 662 to 720. On accept it updates the same
games row in place with rematchResult; on decline it clears the pending offer. -/
def respondToRematch (gameState : Option GameState) (hasId : Bool)
    (settings : GameSettings) (now : Int) (accept : Bool) : Option GameState :=
  match gameState with
  | none => none
  | some gs =>
    if gs.pending_rematch.isNone = true ∨ hasId = false then none
    else if accept then some (rematchResult gs settings now)
    else some { gs with pending_rematch := none }

/-- elapsedSeconds of the startTimers tick, lines 625 to 627: the floor of the
millisecond difference between now and started_at divided by 1000, with
started_at defaulting to now when absent. -/
def elapsedSecondsAt (gs : GameState) (currentTime : Int) : Int :=
  Int.fdiv (currentTime - (match gs.started_at with | some s => s | none => currentTime)) 1000

/-- whiteTimeLeft and blackTimeLeft of the startTimers tick, lines 629 to 630,
read off for one side: the stored time minus the elapsed seconds when that side is
to move, clamped at 0. -/
def remainingTime (gs : GameState) (side : Color) (currentTime : Int) : Int :=
  match side with
  | Color.white =>
      max 0 (gs.white_time - (if gs.current_turn = Color.white then elapsedSecondsAt gs currentTime else 0))
  | Color.black =>
      max 0 (gs.black_time - (if gs.current_turn = Color.black then elapsedSecondsAt gs currentTime else 0))

/-- The client local view: the last seen snapshot plus the derived board. -/
structure LocalState where
  gameState : Option GameState
  board : List String
deriving DecidableEq, Repr

/-- Loading a pgn into a fresh chess.js instance: the derived board holds exactly
the moves the canonical pgn encodes. -/
def replayPgn (p : List String) : List String := p

/-- The broadcast handler of Game.tsx lines 117 to 129: setGameState(payload),
then, only when payload.pgn is truthy (nonempty), the board is rebuilt from the
canonical pgn. -/
def reconcile (l : LocalState) (payload : GameState) : LocalState :=
  { gameState := some payload,
    board := if payload.pgn ≠ [] then replayPgn payload.pgn else l.board }

/-- The move object built by onDrop, lines 221 to 229: promotion is always the
literal q. -/
def onDropInput (sourceSquare targetSquare : String) : MoveInput :=
  { fromSq := sourceSquare, toSq := targetSquare, promotion := "q" }

/-- onDrop delegates to makeMove with onDropInput. -/
def onDrop (oracle : Oracle) (gameState : Option GameState) (isWaiting : Bool)
    (hasId : Bool) (game : List String) (playerColor : Option Color) (now : Int)
    (sourceSquare targetSquare : String) : Option GameState :=
  makeMove oracle gameState isWaiting hasId game playerColor
    (onDropInput sourceSquare targetSquare) now

/-- An oracle instance for concrete evaluations: accepts every move, appending its
square pair to the history. -/
def appendOracle : Oracle := fun g mv => some (g ++ [mv.fromSq ++ mv.toSq])

/-- A fresh two player session: 10 minute control, 5 second increment, started at
epoch 0, white to move. -/
def freshState : GameState :=
  { id := "g1", players := ["alice", "bob"], current_turn := Color.white, pgn := [],
    time_control := 10, increment := 5, pending_draw_offer := none,
    pending_takeback_request := none, game_result := none, moves := [],
    creator := "alice", white_time := 600, black_time := 600, started_at := some 0,
    white_player := none, black_player := none, score := none, pending_rematch := none }

/-- The session after one white move, with a draw offer from alice pending and
black to move. -/
def c2State : GameState :=
  { freshState with
    pending_draw_offer := some "alice",
    current_turn := Color.black,
    pgn := ["e2e4"],
    moves := ["Blancs: e2e4"] }

/-- The snapshot makeMove writes for black answering e7e5 from c2State. -/
def c2Moved : GameState :=
  { c2State with
    current_turn := Color.white,
    pgn := ["e2e4", "e7e5"],
    moves := ["Blancs: e2e4", "Noirs: e7e5"],
    white_time := 605,
    black_time := 600 }

/-- A store row where the opponent move has already been applied: black to move. -/
def c3Row : GameState :=
  { freshState with
    current_turn := Color.black,
    pgn := ["d2d4"],
    moves := ["Blancs: d2d4"] }

/-- The snapshot a writer computes from the stale white-to-move view freshState. -/
def c3Snap : GameState :=
  { freshState with
    current_turn := Color.black,
    pgn := ["e2e4"],
    moves := ["Blancs: e2e4"],
    black_time := 605 }

/-- An ended session with a rematch offer from bob pending. -/
def c4Ended : GameState :=
  { freshState with
    game_result := some "1-0",
    pending_rematch := some "bob",
    pgn := ["e2e4"],
    moves := ["Blancs: e2e4"],
    current_turn := Color.black }

/-- The local settings in scope when the rematch is accepted. -/
def c4Settings : GameSettings := { time_control := 10, increment := 5 }

/-- The fields of a rematch acceptance result that the session lifecycle claim
talks about. -/
def rematchView (o : Option GameState) :
    Option (String × List String × Option String × List String × List String ×
      Color × Int × Int × Option Int × Option String) :=
  o.map (fun s => (s.id, s.players, s.game_result, s.pgn, s.moves, s.current_turn,
    s.white_time, s.black_time, s.started_at, s.pending_rematch))

/-- A session with a draw offer from alice pending, white to move. -/
def c5State : GameState :=
  { freshState with pending_draw_offer := some "alice" }

/-- An ended session: white has already won. -/
def c6State : GameState :=
  { freshState with game_result := some "1-0" }

/-- The fields of a takeback acceptance result that the frame claim talks
about. -/
def takebackView (o : Option GameState) :
    Option (List String × List String × Color × Int × Int × Option String) :=
  o.map (fun s => (s.moves, s.pgn, s.current_turn, s.white_time, s.black_time,
    s.pending_takeback_request))

/-- A session after two half moves with a takeback request from bob pending. -/
def c8State : GameState :=
  { freshState with
    pending_takeback_request := some "bob",
    pgn := ["e2e4", "e7e5"],
    moves := ["Blancs: e2e4", "Noirs: e7e5"] }

/-- C10: every board drop submitted through the public onDrop entry point carries
promotion q in the move object handed to makeMove; no other promotion piece can be
produced by this interface. -/
theorem c10_onDrop_promotes_to_queen (oracle : Oracle) (gameState : Option GameState)
    (w h : Bool) (game : List String) (pc : Option Color) (now : Int)
    (s t : String) :
    (onDropInput s t).promotion = "q" ∧
    onDrop oracle gameState w h game pc now s t =
      makeMove oracle gameState w h game pc (onDropInput s t) now :=
  ⟨rfl, rfl⟩

/-- C1: with a 10 minute control and a 5 second increment, white moving at elapsed
3 seconds leaves the stored white time at 600 seconds (the claim expects 602: the
elapsed time is never deducted) and sets the stored black time to 605 seconds (the
claim expects 600: the increment is credited to the side that did not move). -/
theorem c1_clock_update_diverges :
    (makeMove appendOracle (some freshState) false true [] (some Color.white)
        { fromSq := "e2", toSq := "e4", promotion := "q" } 3000).map
      (fun s => (s.white_time, s.black_time)) = some (600, 605) := by
  rfl

/-- Flipping the turn of a nonempty history gives the turn of the history with
its last ply removed. -/
theorem flip_chessTurn_dropLast (g : List String) (h : g ≠ []) :
    (if chessTurn g = Color.white then Color.black else Color.white) =
      chessTurn g.dropLast := by
  have hl : g.dropLast.length = g.length - 1 := List.length_dropLast g
  have hpos : 0 < g.length := List.length_pos.mpr h
  unfold chessTurn
  rw [hl]
  rcases Nat.even_or_odd g.length with he | ho
  · rw [if_pos (Nat.even_iff.mp he)]
    have h1 : ¬ (g.length - 1) % 2 = 0 := by
      have := Nat.even_iff.mp he
      omega
    simp [h1, Nat.even_iff.mp he]
  · have h0 : ¬ g.length % 2 = 0 := by
      have := Nat.odd_iff.mp ho
      omega
    have h1 : (g.length - 1) % 2 = 0 := by
      have := Nat.odd_iff.mp ho
      omega
    simp [h0, h1]

/-- The elapsed seconds read in the timer tick never decrease as the wall clock
advances, whatever the stored started_at. -/
theorem elapsedSecondsAt_mono (gs : GameState) {t1 t2 : Int} (h : t1 ≤ t2) :
    elapsedSecondsAt gs t1 ≤ elapsedSecondsAt gs t2 := by
  cases hs : gs.started_at with
  | none => simp [elapsedSecondsAt, hs]
  | some s =>
    simp only [elapsedSecondsAt, hs]
    rw [Int.fdiv_eq_ediv _ (by norm_num : (0:Int) ≤ 1000),
        Int.fdiv_eq_ediv _ (by norm_num : (0:Int) ≤ 1000)]
    exact Int.ediv_le_ediv (by norm_num) (by omega)

/-- C2 counterexample: after a successful move by black while a draw offer from
alice is pending, the snapshot written by makeMove still carries the pending
offer, and a subsequent respondToDrawOffer succeeds instead of failing with a no
pending negotiation condition. -/
theorem c2_counterexample :
    (makeMove appendOracle (some c2State) false true ["e2e4"] (some Color.black)
        { fromSq := "e7", toSq := "e5", promotion := "q" } 5000).map
      (fun s => s.pending_draw_offer) = some (some "alice") ∧
    respondToDrawOffer "alice" true
      (makeMove appendOracle (some c2State) false true ["e2e4"] (some Color.black)
        { fromSq := "e7", toSq := "e5", promotion := "q" } 5000) true ≠ none := by
  constructor
  · rfl
  · decide

/-- C2 amended: a successfully applied move leaves the pending draw offer and the
pending takeback request exactly as they were (an offer survives the move), and
when a draw offer was pending a subsequent respondToDrawOffer still succeeds. -/
theorem c2_move_preserves_pending (oracle : Oracle) (gs : GameState) (w h : Bool)
    (game : List String) (pc : Option Color) (mv : MoveInput) (now : Int)
    (s : GameState) (p : String) (a : Bool)
    (hmk : makeMove oracle (some gs) w h game pc mv now = some s)
    (hpend : gs.pending_draw_offer.isSome = true) :
    s.pending_draw_offer = gs.pending_draw_offer ∧
    s.pending_takeback_request = gs.pending_takeback_request ∧
    respondToDrawOffer p true (some s) a ≠ none := by
  obtain ⟨v, hv⟩ := Option.isSome_iff_exists.mp hpend
  simp only [makeMove] at hmk
  split_ifs at hmk <;>
    first
      | exact absurd hmk (by simp)
      | (cases ho : oracle game mv with
         | none =>
             rw [ho] at hmk
             exact absurd hmk (by simp)
         | some ng =>
             rw [ho] at hmk
             obtain rfl := Option.some.inj hmk
             refine ⟨rfl, rfl, ?_⟩
             simp only [respondToDrawOffer, hv, Option.isNone_some]
             cases a <;> simp)

/-- C2 witness: the amended statement applied to the concrete scenario. -/
theorem c2_move_preserves_pending_witness :
    c2Moved.pending_draw_offer = c2State.pending_draw_offer ∧
    c2Moved.pending_takeback_request = c2State.pending_takeback_request ∧
    respondToDrawOffer "alice" true (some c2Moved) true ≠ none :=
  c2_move_preserves_pending appendOracle c2State false true ["e2e4"]
    (some Color.black) { fromSq := "e7", toSq := "e5", promotion := "q" } 5000
    c2Moved "alice" true (by decide) (by decide)

/-- C3: the store row has already advanced to black to move, yet the snapshot
computed by makeMove from the stale white-to-move view is accepted by the id
conditioned store update, while the write the spec requires would reject it as
MoveError.Stale. -/
theorem c3_stale_write_accepted :
    makeMove appendOracle (some freshState) false true [] (some Color.white)
        { fromSq := "e2", toSq := "e4", promotion := "q" } 1000 = some c3Snap ∧
    c3Row.current_turn ≠ freshState.current_turn ∧
    storeUpdate c3Row "g1" c3Snap = Except.ok c3Snap ∧
    specConditionalWrite c3Row "g1" freshState.current_turn c3Snap =
      Except.error MoveError.Stale := by
  refine ⟨by decide, by decide, ?_, ?_⟩ <;> rfl

/-- C4 counterexample: accepting the rematch writes the same games row (same id),
with the outcome field reset to unset, rather than creating a new session
record. -/
theorem c4_counterexample :
    (respondToRematch (some c4Ended) true c4Settings 9000 true).map
      (fun s => (s.id, s.game_result)) = some ("g1", none) := by
  rfl

/-- C4 amended: accepting a rematch mutates the ended record in place: the id and
the players are kept, the outcome is reset to unset, the game fields are cleared,
the clocks are reset from the local settings, and started_at is refreshed. -/
theorem c4_rematch_resets_same_record (gs : GameState) (st : GameSettings)
    (now : Int) (hp : gs.pending_rematch.isSome = true) :
    rematchView (respondToRematch (some gs) true st now true) =
      some (gs.id, gs.players, none, [], [], Color.white, st.time_control * 60,
        st.time_control * 60, some now, none) := by
  obtain ⟨r, hr⟩ := Option.isSome_iff_exists.mp hp
  simp [respondToRematch, rematchView, hr, rematchResult]

/-- C4 witness: the amended statement applied to the concrete ended session. -/
theorem c4_rematch_resets_same_record_witness :
    rematchView (respondToRematch (some c4Ended) true c4Settings 9000 true) =
      some (c4Ended.id, c4Ended.players, none, [], [], Color.white,
        c4Settings.time_control * 60, c4Settings.time_control * 60, some 9000,
        none) :=
  c4_rematch_resets_same_record c4Ended c4Settings 9000 (by decide)

/-- C5 counterexample: respondToDrawOffer invoked with the offering participant
as the local player succeeds and sets the draw outcome, instead of always failing
and leaving the session unchanged. -/
theorem c5_counterexample :
    respondToDrawOffer "alice" true (some c5State) true =
      some { c5State with pending_draw_offer := none, game_result := some "½-½" } ∧
    respondToDrawOffer "alice" true (some c5State) true ≠ none := by
  constructor
  · rfl
  · decide

/-- C5 amended: respondToDrawOffer and respondToTakeback never read the identity
of the responder: the result is the same for every invoking participant, and
whenever the corresponding offer is pending (and, for a takeback, the history is
nonempty) the response succeeds; only the view layer hides the response buttons
from the offerer. -/
theorem c5_respond_ignores_caller (p q : String) (gs : GameState) (a : Bool)
    (game : List String) (hpend : gs.pending_draw_offer.isSome = true)
    (htb : gs.pending_takeback_request.isSome = true) (hg : game ≠ []) :
    respondToDrawOffer p true (some gs) a = respondToDrawOffer q true (some gs) a ∧
    respondToDrawOffer p true (some gs) a ≠ none ∧
    respondToTakeback true (some gs) game a ≠ none := by
  obtain ⟨v, hv⟩ := Option.isSome_iff_exists.mp hpend
  obtain ⟨u, hu⟩ := Option.isSome_iff_exists.mp htb
  have hlen : game.length ≠ 0 := by
    intro h0
    exact hg (List.length_eq_zero.mp h0)
  refine ⟨rfl, ?_, ?_⟩
  · simp only [respondToDrawOffer, hv, Option.isNone_some]
    cases a <;> simp
  · simp only [respondToTakeback, hu, Option.isNone_some]
    cases a <;> simp [hlen]

/-- C5 witness: the amended statement applied to a session where alice offered a
draw and bob requested a takeback. -/
theorem c5_respond_ignores_caller_witness :
    respondToDrawOffer "alice" true
        (some { c5State with pending_takeback_request := some "bob" }) true =
      respondToDrawOffer "bob" true
        (some { c5State with pending_takeback_request := some "bob" }) true ∧
    respondToDrawOffer "alice" true
        (some { c5State with pending_takeback_request := some "bob" }) true ≠ none ∧
    respondToTakeback true
        (some { c5State with pending_takeback_request := some "bob" })
        ["e2e4"] true ≠ none :=
  c5_respond_ignores_caller "alice" "bob"
    { c5State with pending_takeback_request := some "bob" } true ["e2e4"]
    (by decide) (by decide) (by decide)

/-- C6: once the outcome field is set, makeMove returns false before reaching the
turn check or the oracle, for any acting participant, and performs no write. -/
theorem c6_move_fails_when_ended (oracle : Oracle) (gs : GameState) (w h : Bool)
    (game : List String) (pc : Option Color) (mv : MoveInput) (now : Int)
    (hr : gs.game_result.isSome = true) :
    makeMove oracle (some gs) w h game pc mv now = none := by
  simp [makeMove, hr]

/-- C6 witness: a concrete ended session rejects a move by the side to play. -/
theorem c6_move_fails_when_ended_witness :
    makeMove appendOracle (some c6State) false true [] (some Color.white)
      { fromSq := "e2", toSq := "e4", promotion := "q" } 1000 = none :=
  c6_move_fails_when_ended appendOracle c6State false true [] (some Color.white)
    { fromSq := "e2", toSq := "e4", promotion := "q" } 1000 (by decide)

/-- C7: with the stored session fields unchanged, the derived remaining time is
never negative, never increases for the side to move as the wall clock advances,
and is constant for the side not to move. -/
theorem c7_clock_monotone (gs : GameState) (side : Color) (t1 t2 : Int)
    (h12 : t1 ≤ t2) :
    0 ≤ remainingTime gs side t2 ∧
    (gs.current_turn = side → remainingTime gs side t2 ≤ remainingTime gs side t1) ∧
    (gs.current_turn ≠ side → remainingTime gs side t2 = remainingTime gs side t1) := by
  have he := elapsedSecondsAt_mono gs h12
  refine ⟨?_, ?_, ?_⟩
  · cases side <;> exact le_max_left 0 _
  · intro ht
    cases side
    · simp only [remainingTime, ht, if_pos]
      exact max_le_max (le_refl 0) (sub_le_sub_left he _)
    · simp only [remainingTime, ht, if_pos]
      exact max_le_max (le_refl 0) (sub_le_sub_left he _)
  · intro hne
    cases side <;> simp [remainingTime, hne]

/-- C7 witness: the clock invariant at the fresh session between two epochs. -/
theorem c7_clock_monotone_witness :
    0 ≤ remainingTime freshState Color.white 4000 ∧
    (freshState.current_turn = Color.white →
      remainingTime freshState Color.white 4000 ≤
        remainingTime freshState Color.white 1000) ∧
    (freshState.current_turn ≠ Color.white →
      remainingTime freshState Color.white 4000 =
        remainingTime freshState Color.white 1000) :=
  c7_clock_monotone freshState Color.white 1000 4000 (by decide)

/-- C8: with a pending takeback request and a nonempty history, accepting the
takeback drops exactly the last move log entry, restores the turn indicator and
the pgn of the position before the last ply, clears the request, and leaves both
stored clock fields (any credited increment included) unchanged. -/
theorem c8_takeback_pops_last (gs : GameState) (game : List String)
    (hp : gs.pending_takeback_request.isSome = true) (hg : game ≠ []) :
    takebackView (respondToTakeback true (some gs) game true) =
      some (gs.moves.dropLast, game.dropLast, chessTurn game.dropLast,
        gs.white_time, gs.black_time, none) := by
  obtain ⟨r, hr⟩ := Option.isSome_iff_exists.mp hp
  have hlen : game.length ≠ 0 := by
    intro h0
    exact hg (List.length_eq_zero.mp h0)
  simp only [respondToTakeback, takebackView, hr, Option.isNone_some, hlen,
    if_true, if_false]
  rw [flip_chessTurn_dropLast game hg]
  simp

/-- C8 witness: the takeback frame property at the concrete two ply session. -/
theorem c8_takeback_pops_last_witness :
    takebackView (respondToTakeback true (some c8State) ["e2e4", "e7e5"] true) =
      some (c8State.moves.dropLast, ["e2e4", "e7e5"].dropLast,
        chessTurn (["e2e4", "e7e5"].dropLast), c8State.white_time,
        c8State.black_time, none) :=
  c8_takeback_pops_last c8State ["e2e4", "e7e5"] (by decide) (by decide)

/-- C9: the broadcast handler adopts the canonical snapshot verbatim as the local
session state, and reconciling the same canonical value twice equals reconciling
it once, so duplicate or reordered deliveries of one canonical value are
harmless. -/
theorem c9_reconcile_canonical_idempotent (l : LocalState) (c : GameState) :
    (reconcile l c).gameState = some c ∧
    reconcile (reconcile l c) c = reconcile l c := by
  constructor
  · rfl
  · by_cases hc : c.pgn = [] <;> simp [reconcile, hc]
